import Mathlib

/-!
Shallow embedding of the MC-Backuper backup service (src/main.go): the
per-instance backup orchestration (`backupInstance`), retention pruning
(`removeOldSaves`), and the per-instance body of the scheduler loop in
`main`.  External effects (docker/rcon commands, tar, the AWS CLI, sqlite)
are modelled by explicit environments recording each external call's
outcome, by an event trace listing the actions in the order the program
performs them, and by an explicit system state holding the `saves` table
of the catalog and the objects currently present in remote storage.
-/

namespace MCBackup

/-- A row of the `instances` table as `getInstances` scans it
(src/main.go lines 309-349).  The Go field `prefix` is renamed
`s3Prefix` because `prefix` is a Lean keyword. -/
structure Instance where
  id : Nat
  containerName : String
  description : String
  dirName : String
  keepInventory : Bool
  s3Bucket : String
  s3Prefix : String
  workingPath : String
  active : Bool
  deriving DecidableEq, Repr

/-- A row of the `saves` table (schema in `initDB`, src/main.go lines
33-41): filename, logical tombstone flag, byte size, creation timestamp
and owning instance. -/
structure Save where
  id : Nat
  filename : String
  deleted : Bool
  size : Nat
  createdAt : Nat
  instanceId : Nat
  deriving DecidableEq, Repr

/-- A remote object: (bucket, key prefix, filename). -/
abbrev RemoteObj := String × String × String

/-- The object that `backUpToS3` and `deleteS3File` address for file
`fname` under an instance's bucket and prefix. -/
def remoteKey (inst : Instance) (fname : String) : RemoteObj :=
  (inst.s3Bucket, inst.s3Prefix, fname)

/-- The mutable world outside the process that the claims talk about:
the `saves` table of the catalog and the objects currently in remote
storage. -/
structure SysState where
  saves : List Save
  remote : List RemoteObj
  deriving DecidableEq, Repr

/-- One observable external action of the program. -/
inductive Event where
  | ps                                   -- docker ps (isContainerRunning)
  | chdir (path : String)                -- os.Chdir
  | docker (container cmd : String)      -- docker exec <c> rcon-cli <cmd>
  | sleepSec (n : Nat)                   -- time.Sleep
  | tarAttempt (file dir : String)       -- one /bin/tar -czf invocation
  | rmLocal (file : String)              -- os.Remove (deleteFile)
  | s3cp (file bucket pre cls : String)  -- aws s3 cp (backUpToS3)
  | s3rm (file bucket pre : String)      -- aws s3 rm (deleteS3File)
  | statFile (file : String)             -- os.Stat
  | dbBegin
  | dbInsertSave (filename : String) (size instId : Nat)
  | dbMarkDeleted (rowId : Nat)
  | dbCommit
  | dbRollback
  deriving DecidableEq, Repr

/-- Outcomes of the external calls one `backupInstance` run makes.
`tarFailuresBefore` is the number of failed tar attempts before the first
success (the Go loop retries until tar succeeds, so every terminating run
has such a number); `rmDuringTarOk n` says whether the `deleteFile` of the
incomplete archive after the attempt with `n` failures remaining
succeeds. -/
structure BackupEnv where
  beginOk : Bool
  chdirOk : Bool
  feedbackOffOk : Bool
  saveOffOk : Bool
  saveAllOk : Bool
  tarFailuresBefore : Nat
  rmDuringTarOk : Nat → Bool
  uploadOk : Bool
  statOk : Bool
  statSize : Nat
  insertOk : Bool
  rmTarOk : Bool
  commitOk : Bool

/-- Which return of `backupInstance` was taken (ok, or the failing step). -/
inductive BackupOutcome where
  | ok | errBegin | errChdir | errFeedbackOff | errSaveOff | errSaveAll
  | errTarCleanup | errUpload | errStat | errInsert | errDeleteTar | errCommit
  deriving DecidableEq, Repr

/-- Result of one `backupInstance` run: outcome, event trace, resulting
system state, and whether a local archive file is still on disk when the
function returns. -/
structure BackupResult where
  outcome : BackupOutcome
  events : List Event
  state : SysState
  localTarExists : Bool
  deriving Repr

/-- `fmt.Sprintf("world%v.tar.gz", currentTime)` (src/main.go line 226). -/
def worldTarName (timeStr : String) : String :=
  "world" ++ timeStr ++ ".tar.gz"

/-- The tar retry loop of `backupInstance` (src/main.go lines 252-270):
`n` failed attempts remain before the attempt that succeeds; after each
failure the loop deletes the incomplete archive and sleeps 5 seconds
before retrying.  Returns the events and whether the loop ended with a
successful tar (`false` means the in-loop `deleteFile` failed, the only
early exit of the loop). -/
def tarLoop (rmOk : Nat → Bool) (tarFileName dirName : String) :
    Nat → List Event × Bool
  | 0 => ([.tarAttempt tarFileName dirName], true)
  | n + 1 =>
    if rmOk (n + 1) then
      let r := tarLoop rmOk tarFileName dirName n
      ([.tarAttempt tarFileName dirName, .rmLocal tarFileName, .sleepSec 5] ++ r.1,
        r.2)
    else
      ([.tarAttempt tarFileName dirName, .rmLocal tarFileName], false)

/-- The deferred cleanup `backupInstance` registers right after
`db.Begin()` succeeds (src/main.go lines 193-208): re-enable saving,
re-enable command feedback, roll back the transaction (a no-op when the
transaction committed).  It runs on every return path after the
transaction begins. -/
def cleanupEvents (inst : Instance) : List Event :=
  [.docker inst.containerName "/save-on",
   .docker inst.containerName "/gamerule sendCommandFeedback true",
   .dbRollback]

/-- The body of `backupInstance` between `db.Begin()` and the return
(src/main.go lines 210-306), without the deferred cleanup: chdir,
feedback off, say, save-off, 5s sleep, save-all, 10s sleep, tar retry
loop, upload, stat, insert into the open transaction, local delete, say,
commit.  A confirmed upload adds the object to `remote`; only a
successful commit changes the `saves` table. -/
def backupBody (env : BackupEnv) (inst : Instance) (timeStr : String)
    (newId now : Nat) (st : SysState) : BackupResult :=
  let tarFileName := worldTarName timeStr
  let e1 : List Event := [.chdir inst.workingPath]
  if !env.chdirOk then ⟨.errChdir, e1, st, false⟩ else
  let e2 := e1 ++ [.docker inst.containerName "/gamerule sendCommandFeedback false"]
  if !env.feedbackOffOk then ⟨.errFeedbackOff, e2, st, false⟩ else
  let e3 := e2 ++ [.docker inst.containerName "/say Saving world..."]
  let e4 := e3 ++ [.docker inst.containerName "/save-off"]
  if !env.saveOffOk then ⟨.errSaveOff, e4, st, false⟩ else
  let e5 := e4 ++ [.sleepSec 5]
  let e6 := e5 ++ [.docker inst.containerName "/save-all"]
  if !env.saveAllOk then
    ⟨.errSaveAll, e6 ++ [.docker inst.containerName "/say Failed to save world"],
      st, false⟩ else
  let e7 := e6 ++ [.sleepSec 10]
  let tr := tarLoop env.rmDuringTarOk tarFileName inst.dirName env.tarFailuresBefore
  let e8 := e7 ++ tr.1
  if !tr.2 then ⟨.errTarCleanup, e8, st, true⟩ else
  let e9 := e8 ++ [.s3cp tarFileName inst.s3Bucket inst.s3Prefix "STANDARD"]
  if !env.uploadOk then ⟨.errUpload, e9, st, true⟩ else
  let st1 : SysState := ⟨st.saves, st.remote ++ [remoteKey inst tarFileName]⟩
  let e10 := e9 ++ [.statFile tarFileName]
  if !env.statOk then ⟨.errStat, e10, st1, true⟩ else
  let e11 := e10 ++ [.dbInsertSave tarFileName env.statSize inst.id]
  if !env.insertOk then ⟨.errInsert, e11, st1, true⟩ else
  let e12 := e11 ++ [.rmLocal tarFileName]
  if !env.rmTarOk then ⟨.errDeleteTar, e12, st1, true⟩ else
  let e13 := e12 ++ [.docker inst.containerName "/say Save successful!", .dbCommit]
  if !env.commitOk then ⟨.errCommit, e13, st1, false⟩ else
  ⟨.ok, e13,
    ⟨st1.saves ++ [⟨newId, tarFileName, false, env.statSize, now, inst.id⟩],
      st1.remote⟩,
    false⟩

/-- `backupInstance` (src/main.go lines 184-307): begin the transaction
(an early return when that fails, before the deferred cleanup is
registered), then the body; the deferred cleanup (save-on, feedback
restore, rollback) runs at every return after the transaction begins. -/
def backupInstance (env : BackupEnv) (inst : Instance) (timeStr : String)
    (newId now : Nat) (st : SysState) : BackupResult :=
  if env.beginOk then
    let r := backupBody env inst timeStr newId now st
    ⟨r.outcome, .dbBegin :: (r.events ++ cleanupEvents inst), r.state,
      r.localTarExists⟩
  else
    ⟨.errBegin, [.dbBegin], st, false⟩

/-- Outcomes of the external calls one `removeOldSaves` run makes:
whether the remote delete of a given filename succeeds, whether the
tombstone UPDATE for a given row id succeeds, whether the final commit
succeeds. -/
structure PruneEnv where
  s3rmOk : String → Bool
  markOk : Nat → Bool
  commitOk : Bool

inductive PruneOutcome where
  | ok | errLoop | errCommit
  deriving DecidableEq, Repr

/-- The WHERE clause of the live-rows query of `removeOldSaves`
(src/main.go line 375): `deleted = 0 AND instance_id = ?`. -/
def saveLive (instId : Nat) (s : Save) : Bool :=
  !s.deleted && s.instanceId == instId

/-- Insertion step of sorting by `created_at DESC` (newest first). -/
def insertByCreatedDesc (s : Save) : List Save → List Save
  | [] => [s]
  | t :: ts =>
    if t.createdAt ≤ s.createdAt then s :: t :: ts
    else t :: insertByCreatedDesc s ts

/-- `ORDER BY created_at DESC`. -/
def sortByCreatedDesc (l : List Save) : List Save :=
  l.foldr insertByCreatedDesc []

/-- The query `SELECT id,filename FROM saves WHERE deleted = 0 AND
instance_id = ? ORDER BY created_at DESC` (src/main.go line 375). -/
def liveRowsDesc (saves : List Save) (instId : Nat) : List Save :=
  (sortByCreatedDesc saves).filter (saveLive instId)

/-- The deletion candidates of one pruning pass: every row of the
live-rows query after the first `saveRetention` (the loop of
`removeOldSaves` skips the first `saveRetention` rows without scanning
them, src/main.go lines 398-403). -/
def pruneCandidates (st : SysState) (inst : Instance) (saveRetention : Nat) :
    List Save :=
  (liveRowsDesc st.saves inst.id).drop saveRetention

/-- The row loop of `removeOldSaves` over the deletion candidates (every
row after the first `saveRetention` of the query, src/main.go lines
398-420): for each candidate, delete the remote object, then buffer the
tombstone UPDATE in the open transaction; the first failing step aborts
the pass.  Returns (filenames whose remote object was deleted, row ids
whose tombstone is buffered, whether the loop ran to completion). -/
def pruneLoop (env : PruneEnv) : List Save → List String × List Nat × Bool
  | [] => ([], [], true)
  | c :: cs =>
    if env.s3rmOk c.filename then
      if env.markOk c.id then
        let r := pruneLoop env cs
        (c.filename :: r.1, c.id :: r.2.1, r.2.2)
      else
        ([c.filename], [], false)
    else
      ([], [], false)

/-- The effect on one row of committing the buffered tombstone UPDATEs
(`UPDATE saves SET deleted = 1 WHERE id = ?` for each buffered id,
src/main.go line 415). -/
def applyTombstones (ids : List Nat) (s : Save) : Save :=
  if s.id ∈ ids then { s with deleted := true } else s

@[simp] theorem applyTombstones_createdAt (ids : List Nat) (s : Save) :
    (applyTombstones ids s).createdAt = s.createdAt := by
  unfold applyTombstones
  split <;> rfl

@[simp] theorem applyTombstones_filename (ids : List Nat) (s : Save) :
    (applyTombstones ids s).filename = s.filename := by
  unfold applyTombstones
  split <;> rfl

@[simp] theorem applyTombstones_instanceId (ids : List Nat) (s : Save) :
    (applyTombstones ids s).instanceId = s.instanceId := by
  unfold applyTombstones
  split <;> rfl

theorem applyTombstones_of_mem {ids : List Nat} {s : Save}
    (h : s.id ∈ ids) : applyTombstones ids s = { s with deleted := true } :=
  if_pos h

theorem applyTombstones_of_not_mem {ids : List Nat} {s : Save}
    (h : s.id ∉ ids) : applyTombstones ids s = s :=
  if_neg h

@[simp] theorem applyTombstones_nil (s : Save) :
    applyTombstones [] s = s := rfl

/-- `removeOldSaves` (src/main.go lines 373-430): read the live rows
newest first, skip the first `saveRetention`, then for each remaining
row delete the remote object and buffer its tombstone; commit all
buffered tombstones at the end, the deferred rollback discarding them
when any step failed.  Remote deletes happen outside the transaction, so
they persist even when the pass aborts. -/
def removeOldSaves (env : PruneEnv) (inst : Instance) (saveRetention : Nat)
    (st : SysState) : PruneOutcome × SysState :=
  let r := pruneLoop env (pruneCandidates st inst saveRetention)
  let delKeys := r.1.map (remoteKey inst)
  let remote1 := st.remote.filter (fun o => decide (o ∉ delKeys))
  if r.2.2 then
    if env.commitOk then
      (.ok, ⟨st.saves.map (applyTombstones r.2.1), remote1⟩)
    else (.errCommit, ⟨st.saves, remote1⟩)
  else (.errLoop, ⟨st.saves, remote1⟩)

/-- `strings.Split(s, " ")`: split on every single space, keeping empty
fields. -/
def splitOnSpaceAux : List Char → List Char → List String
  | [], acc => [String.mk acc.reverse]
  | c :: cs, acc =>
    if c = ' ' then String.mk acc.reverse :: splitOnSpaceAux cs []
    else splitOnSpaceAux cs (c :: acc)

def splitOnSpace (s : String) : List String :=
  splitOnSpaceAux s.data []

def digitVal (c : Char) : Option Nat :=
  if '0' ≤ c ∧ c ≤ '9' then some (c.toNat - '0'.toNat) else none

def parseDigitsAux : List Char → Nat → Option Nat
  | [], acc => some acc
  | c :: cs, acc =>
    match digitVal c with
    | some d => parseDigitsAux cs (acc * 10 + d)
    | none => none

def parseDigits : List Char → Option Nat
  | [] => none
  | ds => parseDigitsAux ds 0

/-- `strconv.Atoi`: an optional sign followed by at least one digit. -/
def atoi (s : String) : Option Int :=
  match s.data with
  | '-' :: ds => (parseDigits ds).map (fun n => -(n : Int))
  | '+' :: ds => (parseDigits ds).map (fun n => (n : Int))
  | ds => (parseDigits ds).map (fun n => (n : Int))

/-- `getNumberOfPlayers` (src/main.go lines 101-113):
`strconv.Atoi(strings.Split(output, " ")[2])` on the `/list` response;
`none` models a failed docker command.  On any error the Go function
returns `(-1, err)`; the Bool here is `err == nil`.  (Go would panic if
the output had fewer than three space-separated fields; that case is
modelled as a parse failure, no claim exercises it.) -/
def getNumberOfPlayers (listOutput : Option String) : Int × Bool :=
  match listOutput with
  | none => (-1, false)
  | some output =>
    match atoi ((splitOnSpace output).getD 2 "") with
    | none => (-1, false)
    | some n => (n, true)

/-- Outcomes of the external calls of one per-instance iteration of the
scheduler loop: result of `isContainerRunning` (`none` models the error
return of the docker ps command), the raw `/list` output for
`getNumberOfPlayers`, and the environments of the prune and backup it may
run. -/
structure StepEnv where
  psResult : Option Bool
  listOutput : Option String
  pruneEnv : PruneEnv
  backupEnv : BackupEnv
  timeStr : String
  newId : Nat
  now : Nat

/-- Whether the per-instance step fell through to the next instance or
called `log.Fatalf` (which exits the whole process). -/
inductive StepOutcome where
  | continued | fatalExit
  deriving DecidableEq, Repr

structure StepResult where
  outcome : StepOutcome
  events : List Event
  state : SysState
  deriving Repr

/-- One per-instance iteration of the scheduler loop in `main`
(src/main.go lines 485-540): skip inactive instances; `isContainerRunning`
(its error path calls `log.Fatalf`, modelled as `fatalExit`); skip when
not running; query the player count (an error is only logged and leaves
the count at -1); skip when the count equals 0; otherwise run
`removeOldSaves` with `saveRetention - 1` (its error is only logged), set
the keepInventory gamerule, and run `backupInstance` (its error is only
logged).  The trace omits the prune's own events; its effect shows in the
state. -/
def processInstance (env : StepEnv) (saveRetention : Nat) (inst : Instance)
    (st : SysState) : StepResult :=
  if !inst.active then ⟨.continued, [], st⟩
  else
    match env.psResult with
    | none => ⟨.fatalExit, [.ps], st⟩
    | some false => ⟨.continued, [.ps], st⟩
    | some true =>
      let listEvs : List Event := [.ps, .docker inst.containerName "/list"]
      let pc := getNumberOfPlayers env.listOutput
      if pc.1 == 0 then ⟨.continued, listEvs, st⟩
      else
        let pr := removeOldSaves env.pruneEnv inst (saveRetention - 1) st
        let kcmd := if inst.keepInventory then "/gamerule keepInventory true"
          else "/gamerule keepInventory false"
        let br := backupInstance env.backupEnv inst env.timeStr env.newId env.now pr.2
        ⟨.continued, listEvs ++ [.docker inst.containerName kcmd] ++ br.events,
          br.state⟩

/-- Number of non-deleted saves of an instance in the catalog. -/
def liveCount (st : SysState) (instId : Nat) : Nat :=
  (st.saves.filter (saveLive instId)).length

/-- The catalog/storage invariant of spec §3, relative to one instance: a
row with `deleted = false` has its object in the instance's bucket and
prefix, a row with `deleted = true` does not. -/
def savesRemoteConsistent (inst : Instance) (st : SysState) : Prop :=
  ∀ s ∈ st.saves, s.instanceId = inst.id →
    ((s.deleted = false → remoteKey inst s.filename ∈ st.remote) ∧
     (s.deleted = true → remoteKey inst s.filename ∉ st.remote))

instance (inst : Instance) (st : SysState) :
    Decidable (savesRemoteConsistent inst st) := by
  unfold savesRemoteConsistent
  infer_instance


/-! ### Concrete fixtures for witnesses and counterexamples -/

/-- A concrete instance. -/
def wInst : Instance :=
  ⟨1, "mc", "test world", "world", true, "bkt", "saves", "/srv", true⟩

/-- A backup run in which every external call succeeds and tar succeeds
on the first attempt. -/
def wEnvAllOk : BackupEnv :=
  ⟨true, true, true, true, true, 0, fun _ => true, true, true, 42, true, true,
    true⟩

/-- As `wEnvAllOk` but the upload to remote storage fails. -/
def wEnvUploadFail : BackupEnv := { wEnvAllOk with uploadOk := false }

/-- A pruning pass in which every external call succeeds. -/
def wPruneAllOk : PruneEnv := ⟨fun _ => true, fun _ => true, true⟩

/-- Remote deletes and tombstone UPDATEs succeed, the commit fails. -/
def wPruneCommitFail : PruneEnv := ⟨fun _ => true, fun _ => true, false⟩

/-- Every remote delete fails. -/
def wPruneS3Fail : PruneEnv := ⟨fun _ => false, fun _ => true, true⟩

/-- A live save row of instance 1 with id and creation time `i`. -/
def wSave (i : Nat) (name : String) : Save := ⟨i, name, false, 10, i, 1⟩

/-- Six live saves of instance 1 (oldest first), their objects present. -/
def wSt6 : SysState :=
  ⟨[wSave 1 "f1", wSave 2 "f2", wSave 3 "f3", wSave 4 "f4", wSave 5 "f5",
      wSave 6 "f6"],
    [("bkt", "saves", "f1"), ("bkt", "saves", "f2"), ("bkt", "saves", "f3"),
     ("bkt", "saves", "f4"), ("bkt", "saves", "f5"), ("bkt", "saves", "f6")]⟩

/-- A scheduler step whose container-liveness check errors out. -/
def wStepPsErr : StepEnv :=
  ⟨none, some "There are 2 of a max of 20 players online", wPruneAllOk,
    wEnvAllOk, "T", 7, 7⟩

/-- A scheduler step: reachable instance, zero players online. -/
def wStepZeroPlayers : StepEnv :=
  ⟨some true, some "There are 0 of a max of 20 players online", wPruneAllOk,
    wEnvAllOk, "T", 7, 7⟩

/-- A scheduler step: reachable instance, the player query fails. -/
def wStepListErr : StepEnv :=
  ⟨some true, none, wPruneAllOk, wEnvAllOk, "T", 7, 7⟩

/-! ### Helper lemmas about the sort of the live-rows query -/

theorem insertByCreatedDesc_perm (s : Save) (l : List Save) :
    (insertByCreatedDesc s l).Perm (s :: l) := by
  induction l with
  | nil => exact List.Perm.refl _
  | cons t ts ih =>
    unfold insertByCreatedDesc
    split
    · exact List.Perm.refl _
    · exact (ih.cons t).trans (List.Perm.swap s t ts)

theorem sortByCreatedDesc_perm (l : List Save) : (sortByCreatedDesc l).Perm l := by
  induction l with
  | nil => exact List.Perm.refl _
  | cons a as ih =>
    have h1 : sortByCreatedDesc (a :: as) =
        insertByCreatedDesc a (sortByCreatedDesc as) := rfl
    rw [h1]
    exact (insertByCreatedDesc_perm a _).trans (ih.cons a)

theorem insertByCreatedDesc_map (f : Save → Save)
    (hf : ∀ s, (f s).createdAt = s.createdAt) (s : Save) (l : List Save) :
    insertByCreatedDesc (f s) (l.map f) = (insertByCreatedDesc s l).map f := by
  induction l with
  | nil => rfl
  | cons t ts ih =>
    simp only [List.map_cons, insertByCreatedDesc, hf]
    split
    · simp [List.map_cons]
    · simp [List.map_cons, ih]

theorem sortByCreatedDesc_map (f : Save → Save)
    (hf : ∀ s, (f s).createdAt = s.createdAt) (l : List Save) :
    sortByCreatedDesc (l.map f) = (sortByCreatedDesc l).map f := by
  induction l with
  | nil => rfl
  | cons a as ih =>
    have h1 : sortByCreatedDesc ((a :: as).map f) =
        insertByCreatedDesc (f a) (sortByCreatedDesc (as.map f)) := rfl
    have h2 : sortByCreatedDesc (a :: as) =
        insertByCreatedDesc a (sortByCreatedDesc as) := rfl
    rw [h1, h2, ih, insertByCreatedDesc_map f hf]

theorem liveRowsDesc_perm_filter (saves : List Save) (instId : Nat) :
    (liveRowsDesc saves instId).Perm (saves.filter (saveLive instId)) :=
  (sortByCreatedDesc_perm saves).filter _

theorem length_liveRowsDesc (saves : List Save) (instId : Nat) :
    (liveRowsDesc saves instId).length = (saves.filter (saveLive instId)).length :=
  (liveRowsDesc_perm_filter saves instId).length_eq

theorem mem_of_mem_liveRowsDesc {saves : List Save} {instId : Nat} {s : Save}
    (h : s ∈ liveRowsDesc saves instId) :
    s ∈ saves ∧ s.deleted = false ∧ s.instanceId = instId := by
  have h2 := (liveRowsDesc_perm_filter saves instId).mem_iff.mp h
  have h3 := List.mem_filter.mp h2
  refine ⟨h3.1, ?_, ?_⟩
  · have := h3.2
    simp only [saveLive, Bool.and_eq_true, Bool.not_eq_true'] at this
    exact this.1
  · have := h3.2
    simp only [saveLive, Bool.and_eq_true, beq_iff_eq] at this
    exact this.2

theorem mem_of_mem_pruneCandidates {st : SysState} {inst : Instance}
    {reten : Nat} {s : Save} (h : s ∈ pruneCandidates st inst reten) :
    s ∈ st.saves ∧ s.deleted = false ∧ s.instanceId = inst.id :=
  mem_of_mem_liveRowsDesc ((List.drop_sublist _ _).mem h)

/-! ### Helper lemmas about `pruneLoop` and `removeOldSaves` -/

/-- A loop that ran to completion deleted every candidate's remote object
and buffered every candidate's tombstone. -/
theorem pruneLoop_complete (env : PruneEnv) :
    ∀ l : List Save, (pruneLoop env l).2.2 = true →
      (pruneLoop env l).1 = l.map Save.filename ∧
      (pruneLoop env l).2.1 = l.map Save.id := by
  intro l
  induction l with
  | nil => intro _; exact ⟨rfl, rfl⟩
  | cons c cs ih =>
    intro h
    cases h1 : env.s3rmOk c.filename with
    | false => simp [pruneLoop, h1] at h
    | true =>
      cases h2 : env.markOk c.id with
      | false => simp [pruneLoop, h1, h2] at h
      | true =>
        simp only [pruneLoop, h1, h2, if_true] at h ⊢
        have := ih h
        simp [List.map_cons, this.1, this.2]

/-- A remote-delete failure for any candidate aborts the loop. -/
theorem pruneLoop_aborts_of_s3rm_fail (env : PruneEnv) (c : Save) :
    ∀ l : List Save, c ∈ l → env.s3rmOk c.filename = false →
      (pruneLoop env l).2.2 = false := by
  intro l
  induction l with
  | nil => intro h; cases h
  | cons a as ih =>
    intro hmem hf
    rcases List.mem_cons.mp hmem with rfl | hmem2
    · simp [pruneLoop, hf]
    · cases h1 : env.s3rmOk a.filename with
      | false => simp [pruneLoop, h1]
      | true =>
        cases h2 : env.markOk a.id with
        | false => simp [pruneLoop, h1, h2]
        | true => simp [pruneLoop, h1, h2, ih hmem2 hf]

/-- On the success return of `removeOldSaves`, the new state: every
candidate's row tombstoned, every candidate's object removed. -/
theorem removeOldSaves_ok_state (env : PruneEnv) (inst : Instance)
    (reten : Nat) (st : SysState)
    (hok : (removeOldSaves env inst reten st).1 = PruneOutcome.ok) :
    (removeOldSaves env inst reten st).2 =
      ⟨st.saves.map
          (applyTombstones ((pruneCandidates st inst reten).map Save.id)),
        st.remote.filter (fun o => decide
          (o ∉ ((pruneCandidates st inst reten).map Save.filename).map
              (remoteKey inst)))⟩ := by
  cases hloop : (pruneLoop env (pruneCandidates st inst reten)).2.2 with
  | false => simp [removeOldSaves, hloop] at hok
  | true =>
    cases hc : env.commitOk with
    | false => simp [removeOldSaves, hloop, hc] at hok
    | true =>
      have hcp := pruneLoop_complete env (pruneCandidates st inst reten) hloop
      simp [removeOldSaves, hloop, hc, hcp.1, hcp.2]

/-- On any non-success return of `removeOldSaves`, the `saves` table is
unchanged (the deferred rollback discards the buffered tombstones). -/
theorem removeOldSaves_fail_saves (env : PruneEnv) (inst : Instance)
    (reten : Nat) (st : SysState)
    (hfail : (removeOldSaves env inst reten st).1 ≠ PruneOutcome.ok) :
    (removeOldSaves env inst reten st).2.saves = st.saves := by
  cases hloop : (pruneLoop env (pruneCandidates st inst reten)).2.2 with
  | false => simp [removeOldSaves, hloop]
  | true =>
    cases hc : env.commitOk with
    | false => simp [removeOldSaves, hloop, hc]
    | true => exact absurd (by simp [removeOldSaves, hloop, hc]) hfail

/-- Keeping exactly the rows whose id is not among the ids of the rows
after position `n` keeps exactly the first `n` rows, when ids are
pairwise distinct. -/
theorem filter_not_id_mem_drop (l : List Save) :
    ∀ n : Nat, (l.map Save.id).Nodup →
      l.filter (fun s => decide (s.id ∉ (l.drop n).map Save.id)) = l.take n := by
  induction l with
  | nil => intro n _; simp
  | cons a as ih =>
    intro n hnd
    rw [List.map_cons, List.nodup_cons] at hnd
    cases n with
    | zero =>
      simp only [List.drop_zero, List.take_zero]
      apply List.filter_eq_nil_iff.mpr
      intro s hs
      have hm : s.id ∈ (a :: as).map Save.id := List.mem_map_of_mem _ hs
      simp only [List.map_cons, List.mem_cons] at hm
      simp
      intro hne
      rcases hm with h1 | h2
      · exact absurd h1 hne
      · rcases List.mem_map.mp h2 with ⟨x, hx, hxid⟩
        exact ⟨x, hx, hxid⟩
    | succ m =>
      simp only [List.drop_succ_cons, List.take_succ_cons]
      have hna : a.id ∉ (as.drop m).map Save.id := fun hx =>
        hnd.1 (List.Sublist.subset
          (List.Sublist.map Save.id (List.drop_sublist m as)) hx)
      rw [List.filter_cons_of_pos]
      · rw [ih m hnd.2]
      · simpa using hna

theorem liveRowsDesc_ids_nodup (saves : List Save) (i : Nat)
    (h : (saves.map Save.id).Nodup) :
    ((liveRowsDesc saves i).map Save.id).Nodup := by
  have h1 : ((sortByCreatedDesc saves).map Save.id).Nodup :=
    ((sortByCreatedDesc_perm saves).map Save.id).nodup_iff.mpr h
  exact ((List.filter_sublist _).map Save.id).nodup h1

/-- After a successful pruning pass, the live rows of the instance are
exactly the first `saveRetention` rows of the pass's own query. -/
theorem liveRowsDesc_after_prune (env : PruneEnv) (inst : Instance)
    (reten : Nat) (st : SysState)
    (hids : (st.saves.map Save.id).Nodup)
    (hok : (removeOldSaves env inst reten st).1 = PruneOutcome.ok) :
    liveRowsDesc (removeOldSaves env inst reten st).2.saves inst.id =
      (liveRowsDesc st.saves inst.id).take reten := by
  have hsaves : (removeOldSaves env inst reten st).2.saves =
      st.saves.map
        (applyTombstones ((pruneCandidates st inst reten).map Save.id)) := by
    rw [removeOldSaves_ok_state env inst reten st hok]
  rw [hsaves]
  have hf : ∀ s : Save,
      (applyTombstones ((pruneCandidates st inst reten).map Save.id)
        s).createdAt = s.createdAt := fun s =>
    applyTombstones_createdAt _ s
  show (sortByCreatedDesc (st.saves.map _)).filter (saveLive inst.id) = _
  rw [sortByCreatedDesc_map _ hf, List.filter_map]
  have hpt : ∀ s ∈ sortByCreatedDesc st.saves,
      (saveLive inst.id ∘
        applyTombstones ((pruneCandidates st inst reten).map Save.id)) s =
      (decide (s.id ∉ (pruneCandidates st inst reten).map Save.id) &&
        saveLive inst.id s) := by
    intro s _
    by_cases h : s.id ∈ (pruneCandidates st inst reten).map Save.id <;>
      simp [Function.comp, applyTombstones, h, saveLive]
  rw [List.filter_congr hpt, ← List.filter_filter]
  have hrows : (sortByCreatedDesc st.saves).filter (saveLive inst.id) =
      liveRowsDesc st.saves inst.id := rfl
  rw [hrows]
  have hcand : pruneCandidates st inst reten =
      (liveRowsDesc st.saves inst.id).drop reten := rfl
  rw [hcand,
    filter_not_id_mem_drop (liveRowsDesc st.saves inst.id) reten
      (liveRowsDesc_ids_nodup st.saves inst.id hids)]
  have htdisj : ∀ s ∈ (liveRowsDesc st.saves inst.id).take reten,
      s.id ∉ ((liveRowsDesc st.saves inst.id).drop reten).map Save.id := by
    intro s hs hmem
    have hnd : ((liveRowsDesc st.saves inst.id).map Save.id).Nodup :=
      liveRowsDesc_ids_nodup st.saves inst.id hids
    have hsplit : (liveRowsDesc st.saves inst.id).map Save.id =
        ((liveRowsDesc st.saves inst.id).take reten).map Save.id ++
          ((liveRowsDesc st.saves inst.id).drop reten).map Save.id := by
      rw [← List.map_append, List.take_append_drop]
    rw [hsplit] at hnd
    exact (List.nodup_append.mp hnd).2.2 (List.mem_map_of_mem _ hs) hmem
  rw [List.map_congr_left
    (fun s hs => applyTombstones_of_not_mem (htdisj s hs)), List.map_id']

/-- A successful pruning pass with retention `reten` leaves
`min reten n` live rows for the instance, `n` the live count before. -/
theorem liveCount_after_prune (env : PruneEnv) (inst : Instance) (reten : Nat)
    (st : SysState) (hids : (st.saves.map Save.id).Nodup)
    (hok : (removeOldSaves env inst reten st).1 = PruneOutcome.ok) :
    liveCount (removeOldSaves env inst reten st).2 inst.id =
      min reten (liveCount st inst.id) := by
  unfold liveCount
  rw [← length_liveRowsDesc, liveRowsDesc_after_prune env inst reten st hids hok,
    List.length_take, length_liveRowsDesc]

/-- After a successful pass, a second pass with the same retention finds
no candidates. -/
theorem pruneCandidates_empty_after_prune (env : PruneEnv) (inst : Instance)
    (reten : Nat) (st : SysState) (hids : (st.saves.map Save.id).Nodup)
    (hok : (removeOldSaves env inst reten st).1 = PruneOutcome.ok) :
    pruneCandidates (removeOldSaves env inst reten st).2 inst reten = [] := by
  show (liveRowsDesc _ inst.id).drop reten = []
  rw [liveRowsDesc_after_prune env inst reten st hids hok]
  exact List.drop_eq_nil_of_le (List.length_take_le _ _)


/-- State/outcome shape of every run of the body: a failure before the
upload is confirmed leaves the system state unchanged; a failure after it
leaves the new object in remote storage with the catalog unchanged (the
known reconciliation gap); exactly the success return appends the new
object and the new live row, with the local archive deleted. -/
theorem backupBody_shape (env : BackupEnv) (inst : Instance) (timeStr : String)
    (newId now : Nat) (st : SysState) :
    ((backupBody env inst timeStr newId now st).state = st ∧
      (backupBody env inst timeStr newId now st).outcome ≠ BackupOutcome.ok) ∨
    ((backupBody env inst timeStr newId now st).state =
        ⟨st.saves, st.remote ++ [remoteKey inst (worldTarName timeStr)]⟩ ∧
      (backupBody env inst timeStr newId now st).outcome ≠ BackupOutcome.ok) ∨
    ((backupBody env inst timeStr newId now st).state =
        ⟨st.saves ++ [⟨newId, worldTarName timeStr, false, env.statSize, now,
            inst.id⟩],
          st.remote ++ [remoteKey inst (worldTarName timeStr)]⟩ ∧
      (backupBody env inst timeStr newId now st).outcome = BackupOutcome.ok ∧
      (backupBody env inst timeStr newId now st).localTarExists = false) := by
  cases h1 : env.chdirOk with
  | false => exact Or.inl (by constructor <;> simp [backupBody, h1])
  | true =>
    cases h2 : env.feedbackOffOk with
    | false => exact Or.inl (by constructor <;> simp [backupBody, h1, h2])
    | true =>
      cases h3 : env.saveOffOk with
      | false => exact Or.inl (by constructor <;> simp [backupBody, h1, h2, h3])
      | true =>
        cases h4 : env.saveAllOk with
        | false => exact Or.inl (by constructor <;> simp [backupBody, h1, h2, h3, h4])
        | true =>
          cases htr : (tarLoop env.rmDuringTarOk (worldTarName timeStr) inst.dirName env.tarFailuresBefore).2 with
          | false => exact Or.inl (by constructor <;> simp [backupBody, h1, h2, h3, h4, htr])
          | true =>
            cases h5 : env.uploadOk with
            | false => exact Or.inl (by constructor <;> simp [backupBody, h1, h2, h3, h4, htr, h5])
            | true =>
              cases h6 : env.statOk with
              | false => exact Or.inr (Or.inl (by constructor <;> simp [backupBody, h1, h2, h3, h4, htr, h5, h6]))
              | true =>
                cases h7 : env.insertOk with
                | false => exact Or.inr (Or.inl (by constructor <;> simp [backupBody, h1, h2, h3, h4, htr, h5, h6, h7]))
                | true =>
                  cases h8 : env.rmTarOk with
                  | false => exact Or.inr (Or.inl (by constructor <;> simp [backupBody, h1, h2, h3, h4, htr, h5, h6, h7, h8]))
                  | true =>
                    cases h9 : env.commitOk with
                    | false => exact Or.inr (Or.inl (by constructor <;> simp [backupBody, h1, h2, h3, h4, htr, h5, h6, h7, h8, h9]))
                    | true =>
                      exact Or.inr (Or.inr (by refine ⟨?_, ?_, ?_⟩ <;> simp [backupBody, h1, h2, h3, h4, htr, h5, h6, h7, h8, h9]))

/-- Every run of the body whose quiesce commands succeed performs, in
order: chdir, feedback off, the player notice, `/save-off`, a 5 second
settle sleep, `/save-all`, a 10 second settle sleep, and only then the
tar attempts. -/
theorem backupBody_events_quiesce (env : BackupEnv) (inst : Instance)
    (timeStr : String) (newId now : Nat) (st : SysState)
    (hq1 : env.chdirOk = true) (hq2 : env.feedbackOffOk = true)
    (hq3 : env.saveOffOk = true) (hq4 : env.saveAllOk = true) :
    ∃ rest, (backupBody env inst timeStr newId now st).events =
      [Event.chdir inst.workingPath,
       Event.docker inst.containerName "/gamerule sendCommandFeedback false",
       Event.docker inst.containerName "/say Saving world...",
       Event.docker inst.containerName "/save-off",
       Event.sleepSec 5,
       Event.docker inst.containerName "/save-all",
       Event.sleepSec 10] ++
      (tarLoop env.rmDuringTarOk (worldTarName timeStr) inst.dirName
        env.tarFailuresBefore).1 ++ rest := by
  cases htr : (tarLoop env.rmDuringTarOk (worldTarName timeStr) inst.dirName env.tarFailuresBefore).2 with
  | false => exact ⟨[], by simp [backupBody, hq1, hq2, hq3, hq4, htr]⟩
  | true =>
    cases h5 : env.uploadOk with
    | false => exact ⟨[Event.s3cp (worldTarName timeStr) inst.s3Bucket inst.s3Prefix "STANDARD"], by simp [backupBody, hq1, hq2, hq3, hq4, htr, h5]⟩
    | true =>
      cases h6 : env.statOk with
      | false => exact ⟨[Event.s3cp (worldTarName timeStr) inst.s3Bucket inst.s3Prefix "STANDARD", Event.statFile (worldTarName timeStr)], by simp [backupBody, hq1, hq2, hq3, hq4, htr, h5, h6]⟩
      | true =>
        cases h7 : env.insertOk with
        | false => exact ⟨[Event.s3cp (worldTarName timeStr) inst.s3Bucket inst.s3Prefix "STANDARD", Event.statFile (worldTarName timeStr), Event.dbInsertSave (worldTarName timeStr) env.statSize inst.id], by simp [backupBody, hq1, hq2, hq3, hq4, htr, h5, h6, h7]⟩
        | true =>
          cases h8 : env.rmTarOk with
          | false => exact ⟨[Event.s3cp (worldTarName timeStr) inst.s3Bucket inst.s3Prefix "STANDARD", Event.statFile (worldTarName timeStr), Event.dbInsertSave (worldTarName timeStr) env.statSize inst.id, Event.rmLocal (worldTarName timeStr)], by simp [backupBody, hq1, hq2, hq3, hq4, htr, h5, h6, h7, h8]⟩
          | true =>
            cases h9 : env.commitOk with
            | false => exact ⟨[Event.s3cp (worldTarName timeStr) inst.s3Bucket inst.s3Prefix "STANDARD", Event.statFile (worldTarName timeStr), Event.dbInsertSave (worldTarName timeStr) env.statSize inst.id, Event.rmLocal (worldTarName timeStr), Event.docker inst.containerName "/say Save successful!", Event.dbCommit], by simp [backupBody, hq1, hq2, hq3, hq4, htr, h5, h6, h7, h8, h9]⟩
            | true =>
              exact ⟨[Event.s3cp (worldTarName timeStr) inst.s3Bucket inst.s3Prefix "STANDARD", Event.statFile (worldTarName timeStr), Event.dbInsertSave (worldTarName timeStr) env.statSize inst.id, Event.rmLocal (worldTarName timeStr), Event.docker inst.containerName "/say Save successful!", Event.dbCommit], by simp [backupBody, hq1, hq2, hq3, hq4, htr, h5, h6, h7, h8, h9]⟩

theorem backupInstance_outcome_eq (env : BackupEnv) (inst : Instance)
    (timeStr : String) (newId now : Nat) (st : SysState)
    (hb : env.beginOk = true) :
    (backupInstance env inst timeStr newId now st).outcome =
      (backupBody env inst timeStr newId now st).outcome := by
  simp [backupInstance, hb]

theorem backupInstance_state_eq (env : BackupEnv) (inst : Instance)
    (timeStr : String) (newId now : Nat) (st : SysState)
    (hb : env.beginOk = true) :
    (backupInstance env inst timeStr newId now st).state =
      (backupBody env inst timeStr newId now st).state := by
  simp [backupInstance, hb]

theorem backupInstance_tar_eq (env : BackupEnv) (inst : Instance)
    (timeStr : String) (newId now : Nat) (st : SysState)
    (hb : env.beginOk = true) :
    (backupInstance env inst timeStr newId now st).localTarExists =
      (backupBody env inst timeStr newId now st).localTarExists := by
  simp [backupInstance, hb]

theorem backupInstance_events_eq (env : BackupEnv) (inst : Instance)
    (timeStr : String) (newId now : Nat) (st : SysState)
    (hb : env.beginOk = true) :
    (backupInstance env inst timeStr newId now st).events =
      Event.dbBegin :: ((backupBody env inst timeStr newId now st).events ++
        cleanupEvents inst) := by
  simp [backupInstance, hb]

/-- A run can only succeed when the transaction began. -/
theorem backupInstance_ok_begin (env : BackupEnv) (inst : Instance)
    (timeStr : String) (newId now : Nat) (st : SysState)
    (hok : (backupInstance env inst timeStr newId now st).outcome =
      BackupOutcome.ok) :
    env.beginOk = true := by
  cases hb : env.beginOk with
  | false => simp [backupInstance, hb] at hok
  | true => rfl


/-- Running `removeOldSaves` again right after a successful pass changes
nothing: no remote object is deleted and no row is tombstoned (the
candidates of the first pass are already tombstoned and excluded from
the second read). -/
theorem removeOldSaves_second_noop (env1 env2 : PruneEnv) (inst : Instance)
    (reten : Nat) (st : SysState)
    (hids : (st.saves.map Save.id).Nodup)
    (hok : (removeOldSaves env1 inst reten st).1 = PruneOutcome.ok) :
    (removeOldSaves env2 inst reten (removeOldSaves env1 inst reten st).2).2 =
      (removeOldSaves env1 inst reten st).2 := by
  have hcand := pruneCandidates_empty_after_prune env1 inst reten st hids hok
  generalize hst1 : (removeOldSaves env1 inst reten st).2 = st1 at hcand ⊢
  cases hc : env2.commitOk <;>
    simp [removeOldSaves, hcand, pruneLoop, hc, List.filter_true, List.map_id'']

/-! ### Preservation of the catalog/storage invariant -/

/-- Adding a remote object with a filename no row mentions preserves the
invariant. -/
theorem consistent_add_remote (inst : Instance) (saves : List Save)
    (remote : List RemoteObj) (fname : String)
    (hcons : savesRemoteConsistent inst ⟨saves, remote⟩)
    (hfresh : ∀ s ∈ saves, s.filename ≠ fname) :
    savesRemoteConsistent inst ⟨saves, remote ++ [remoteKey inst fname]⟩ := by
  intro t ht hinst
  have h2 := hcons t ht hinst
  constructor
  · intro hdel
    exact List.mem_append_left _ (h2.1 hdel)
  · intro hdel hmem
    rcases List.mem_append.mp hmem with hmem1 | hmem2
    · exact h2.2 hdel hmem1
    · have he : remoteKey inst t.filename = remoteKey inst fname :=
        List.mem_singleton.mp hmem2
      have he2 : t.filename = fname := by simpa [remoteKey] using he
      exact hfresh t ht he2

/-- Appending a live row whose object is already in remote storage
preserves the invariant. -/
theorem consistent_add_row (inst : Instance) (saves : List Save)
    (remote : List RemoteObj) (s0 : Save)
    (hcons : savesRemoteConsistent inst ⟨saves, remote⟩)
    (hlive : s0.deleted = false)
    (hmem : remoteKey inst s0.filename ∈ remote) :
    savesRemoteConsistent inst ⟨saves ++ [s0], remote⟩ := by
  intro t ht hinst
  rcases List.mem_append.mp ht with h1 | h2
  · exact hcons t h1 hinst
  · have h3 : t = s0 := List.mem_singleton.mp h2
    subst h3
    constructor
    · intro _
      exact hmem
    · intro hdel
      exact absurd hdel (by simp [hlive])

/-- Every run of `backupInstance` preserves the invariant, provided the
new archive's timestamped filename differs from every recorded one: the
orchestrator only ever adds the object it then records, and on failure
after the upload the extra remote object corresponds to no row. -/
theorem savesRemoteConsistent_after_backup (env : BackupEnv) (inst : Instance)
    (timeStr : String) (newId now : Nat) (st : SysState)
    (hcons : savesRemoteConsistent inst st)
    (hfresh : ∀ s ∈ st.saves, s.filename ≠ worldTarName timeStr) :
    savesRemoteConsistent inst
      (backupInstance env inst timeStr newId now st).state := by
  cases hb : env.beginOk with
  | false =>
    have hstate : (backupInstance env inst timeStr newId now st).state = st := by
      simp [backupInstance, hb]
    rw [hstate]
    exact hcons
  | true =>
    rw [backupInstance_state_eq env inst timeStr newId now st hb]
    rcases backupBody_shape env inst timeStr newId now st with
      ⟨h, _⟩ | ⟨h, _⟩ | ⟨h, _, _⟩
    · rw [h]
      exact hcons
    · rw [h]
      exact consistent_add_remote inst st.saves st.remote (worldTarName timeStr)
        hcons hfresh
    · rw [h]
      exact consistent_add_row inst _ _ _
        (consistent_add_remote inst st.saves st.remote (worldTarName timeStr)
          hcons hfresh)
        rfl
        (List.mem_append_right _ (List.mem_singleton.mpr rfl))

/-- A successful pruning pass preserves the invariant: each candidate
loses both its remote object and its live flag, and unique ids and
per-instance unique filenames keep the deletions from touching any
retained row's object. -/
theorem savesRemoteConsistent_after_prune (env : PruneEnv) (inst : Instance)
    (reten : Nat) (st : SysState)
    (hcons : savesRemoteConsistent inst st)
    (hids : (st.saves.map Save.id).Nodup)
    (hfiles : ((st.saves.filter
        (fun s => s.instanceId == inst.id)).map Save.filename).Nodup)
    (hok : (removeOldSaves env inst reten st).1 = PruneOutcome.ok) :
    savesRemoteConsistent inst (removeOldSaves env inst reten st).2 := by
  have hsaves : (removeOldSaves env inst reten st).2.saves =
      st.saves.map
        (applyTombstones ((pruneCandidates st inst reten).map Save.id)) := by
    rw [removeOldSaves_ok_state env inst reten st hok]
  have hremote : (removeOldSaves env inst reten st).2.remote =
      st.remote.filter (fun o => decide
        (o ∉ ((pruneCandidates st inst reten).map Save.filename).map
            (remoteKey inst))) := by
    rw [removeOldSaves_ok_state env inst reten st hok]
  intro t ht hinst
  rw [hsaves] at ht
  rw [hremote]
  rcases List.mem_map.mp ht with ⟨s, hs, rfl⟩
  rw [applyTombstones_instanceId] at hinst
  rw [applyTombstones_filename]
  by_cases hid : s.id ∈ (pruneCandidates st inst reten).map Save.id
  · -- s is a candidate: its row is tombstoned and its object deleted
    rcases List.mem_map.mp hid with ⟨c, hc, hcid⟩
    have hcs : c = s :=
      List.inj_on_of_nodup_map hids (mem_of_mem_pruneCandidates hc).1 hs hcid
    subst hcs
    have hfn : remoteKey inst c.filename ∈
        ((pruneCandidates st inst reten).map Save.filename).map
          (remoteKey inst) :=
      List.mem_map_of_mem _ (List.mem_map_of_mem _ hc)
    constructor
    · intro hdel
      rw [applyTombstones_of_mem hid] at hdel
      simp at hdel
    · intro _ hmem
      have hg := (List.mem_filter.mp hmem).2
      rw [decide_eq_true_eq] at hg
      exact hg hfn
  · -- s is retained untouched
    rw [applyTombstones_of_not_mem hid]
    have h2 := hcons s hs hinst
    constructor
    · intro hdel
      refine List.mem_filter.mpr ⟨h2.1 hdel, ?_⟩
      rw [decide_eq_true_eq]
      intro hmem
      rcases List.mem_map.mp hmem with ⟨fname, hfname, hkey⟩
      have hkey2 : fname = s.filename := by
        simpa [remoteKey] using hkey
      subst hkey2
      rcases List.mem_map.mp hfname with ⟨c, hc, hcfn⟩
      have hcmem := mem_of_mem_pruneCandidates hc
      have hcfilter : c ∈ st.saves.filter
          (fun s => s.instanceId == inst.id) :=
        List.mem_filter.mpr ⟨hcmem.1, by simp [hcmem.2.2]⟩
      have hsfilter : s ∈ st.saves.filter
          (fun s => s.instanceId == inst.id) :=
        List.mem_filter.mpr ⟨hs, by simp [hinst]⟩
      have hcs : c = s :=
        List.inj_on_of_nodup_map hfiles hcfilter hsfilter hcfn
      subst hcs
      exact hid (List.mem_map_of_mem _ hc)
    · intro hdel hmem
      exact h2.2 hdel (List.mem_filter.mp hmem).1


/-- Every terminating tar loop starts with a tar attempt. -/
theorem tarLoop_head (rmOk : Nat → Bool) (f d : String) :
    ∀ n : Nat, ∃ l b, tarLoop rmOk f d n = (Event.tarAttempt f d :: l, b) := by
  intro n
  cases n with
  | zero => exact ⟨[], true, rfl⟩
  | succ m =>
    cases h : rmOk (m + 1) with
    | true =>
      refine ⟨[Event.rmLocal f, Event.sleepSec 5] ++ (tarLoop rmOk f d m).1,
        (tarLoop rmOk f d m).2, ?_⟩
      simp [tarLoop, h]
    | false =>
      exact ⟨[Event.rmLocal f], false, by simp [tarLoop, h]⟩


/-! ### The claims -/

/-- C1: For every run of `backupInstance` in which the transaction began,
no matter which later step fails (chdir, feedback toggle, save-off,
save-all, archive loop, upload, stat, catalog insert, local delete,
commit), the function re-enables automatic persistence (`/save-on`) and
restores command feedback verbosity before it returns: the deferred
cleanup is a suffix of the run's trace. -/
theorem backupInstance_restores_persistence (env : BackupEnv)
    (inst : Instance) (timeStr : String) (newId now : Nat) (st : SysState)
    (hb : env.beginOk = true) :
    ∃ pre, (backupInstance env inst timeStr newId now st).events =
      pre ++ [Event.docker inst.containerName "/save-on",
              Event.docker inst.containerName
                "/gamerule sendCommandFeedback true",
              Event.dbRollback] := by
  refine ⟨Event.dbBegin :: (backupBody env inst timeStr newId now st).events,
    ?_⟩
  rw [backupInstance_events_eq env inst timeStr newId now st hb]
  simp [cleanupEvents]

theorem backupInstance_restores_persistence_witness :
    ∃ pre, (backupInstance wEnvUploadFail wInst "T" 7 7 ⟨[], []⟩).events =
      pre ++ [Event.docker "mc" "/save-on",
              Event.docker "mc" "/gamerule sendCommandFeedback true",
              Event.dbRollback] :=
  backupInstance_restores_persistence wEnvUploadFail wInst "T" 7 7 ⟨[], []⟩ rfl

/-- C2 counterexample: a reachable state violating the claimed invariant.
From the empty system, two successful backups record saves "worldA" and
"worldB"; a pruning pass with retention 1 then deletes the remote object
of the older save but fails at commit, so its tombstone is rolled back:
the resulting state has a `deleted = false` row whose remote object no
longer exists. -/
theorem savesRemote_invariant_counterexample :
    savesRemoteConsistent wInst ⟨[], []⟩ ∧
    ¬ savesRemoteConsistent wInst
      (removeOldSaves wPruneCommitFail wInst 1
        (backupInstance wEnvAllOk wInst "B" 2 2
          (backupInstance wEnvAllOk wInst "A" 1 1 ⟨[], []⟩).state).state).2 := by
  constructor
  · decide
  · decide

/-- C2 amended: the invariant is preserved by every `backupInstance` run
(any outcome) when the new timestamped filename is fresh, and by every
`removeOldSaves` pass that returns success; a pass that fails between a
remote delete and the commit can break it (see the counterexample). -/
theorem savesRemoteConsistent_preserved (benv : BackupEnv) (penv : PruneEnv)
    (inst : Instance) (timeStr : String) (newId now reten : Nat)
    (st : SysState)
    (hcons : savesRemoteConsistent inst st)
    (hfresh : ∀ s ∈ st.saves, s.filename ≠ worldTarName timeStr)
    (hids : (st.saves.map Save.id).Nodup)
    (hfiles : ((st.saves.filter
        (fun s => s.instanceId == inst.id)).map Save.filename).Nodup) :
    savesRemoteConsistent inst
        (backupInstance benv inst timeStr newId now st).state ∧
    ((removeOldSaves penv inst reten st).1 = PruneOutcome.ok →
      savesRemoteConsistent inst (removeOldSaves penv inst reten st).2) :=
  ⟨savesRemoteConsistent_after_backup benv inst timeStr newId now st hcons
      hfresh,
    fun hok => savesRemoteConsistent_after_prune penv inst reten st hcons
      hids hfiles hok⟩

theorem savesRemoteConsistent_preserved_witness :
    savesRemoteConsistent wInst
        (backupInstance wEnvUploadFail wInst "T" 7 7 wSt6).state ∧
    ((removeOldSaves wPruneAllOk wInst 1 wSt6).1 = PruneOutcome.ok →
      savesRemoteConsistent wInst
        (removeOldSaves wPruneAllOk wInst 1 wSt6).2) :=
  savesRemoteConsistent_preserved wEnvUploadFail wPruneAllOk wInst "T" 7 7 1
    wSt6 (by decide) (by decide) (by decide) (by decide)

/-- C3: For an active instance whose container runs and whose player
query succeeds with exactly 0 players, the per-instance step only issues
the liveness check and the `/list` query: no prune, no archive attempt,
no upload, no catalog write, the state is unchanged and the loop simply
continues. -/
theorem processInstance_zero_players_noop (env : StepEnv) (k : Nat)
    (inst : Instance) (st : SysState)
    (ha : inst.active = true) (hps : env.psResult = some true)
    (hpc : getNumberOfPlayers env.listOutput = (0, true)) :
    processInstance env k inst st =
      ⟨StepOutcome.continued,
        [Event.ps, Event.docker inst.containerName "/list"], st⟩ := by
  simp [processInstance, ha, hps, hpc]

theorem processInstance_zero_players_noop_witness :
    processInstance wStepZeroPlayers 5 wInst wSt6 =
      ⟨StepOutcome.continued, [Event.ps, Event.docker "mc" "/list"], wSt6⟩ :=
  processInstance_zero_players_noop wStepZeroPlayers 5 wInst wSt6 rfl rfl
    (by decide)

/-- C4: A successful pruning pass with retention `reten = K - 1` followed
by a successful `backupInstance` leaves exactly
`min K (previous_live_count + 1)` live saves for the instance (stated
with `K = reten + 1`). -/
theorem prune_then_backup_live_count (penv : PruneEnv) (benv : BackupEnv)
    (inst : Instance) (timeStr : String) (newId now reten : Nat)
    (st : SysState)
    (hids : (st.saves.map Save.id).Nodup)
    (hpok : (removeOldSaves penv inst reten st).1 = PruneOutcome.ok)
    (hbok : (backupInstance benv inst timeStr newId now
      (removeOldSaves penv inst reten st).2).outcome = BackupOutcome.ok) :
    liveCount (backupInstance benv inst timeStr newId now
        (removeOldSaves penv inst reten st).2).state inst.id =
      min (reten + 1) (liveCount st inst.id + 1) := by
  have hb : benv.beginOk = true :=
    backupInstance_ok_begin benv inst timeStr newId now _ hbok
  have h1 := liveCount_after_prune penv inst reten st hids hpok
  rw [backupInstance_outcome_eq benv inst timeStr newId now _ hb] at hbok
  rcases backupBody_shape benv inst timeStr newId now
      (removeOldSaves penv inst reten st).2 with
    ⟨_, hno⟩ | ⟨_, hno⟩ | ⟨hstate, _, _⟩
  · exact absurd hbok hno
  · exact absurd hbok hno
  · rw [backupInstance_state_eq benv inst timeStr newId now _ hb, hstate]
    unfold liveCount at h1 ⊢
    simp only [List.filter_append, List.length_append]
    rw [h1]
    have h2 : (List.filter (saveLive inst.id)
        [⟨newId, worldTarName timeStr, false, benv.statSize, now,
          inst.id⟩]).length = 1 := by
      simp [saveLive]
    rw [h2]
    omega

theorem prune_then_backup_live_count_witness :
    liveCount (backupInstance wEnvAllOk wInst "T" 7 7
        (removeOldSaves wPruneAllOk wInst 4 wSt6).2).state wInst.id = 5 :=
  prune_then_backup_live_count wPruneAllOk wEnvAllOk wInst "T" 7 7 4 wSt6
    (by decide) (by decide) (by decide)

/-- C5: If the remote delete of any candidate fails, the pruning pass
returns an error and commits no tombstone: the `saves` table is left
unchanged (all candidate tombstones commit together or not at all). -/
theorem removeOldSaves_abort_no_tombstones (env : PruneEnv) (inst : Instance)
    (reten : Nat) (st : SysState) (c : Save)
    (hc : c ∈ pruneCandidates st inst reten)
    (hf : env.s3rmOk c.filename = false) :
    (removeOldSaves env inst reten st).1 ≠ PruneOutcome.ok ∧
    (removeOldSaves env inst reten st).2.saves = st.saves := by
  have hab := pruneLoop_aborts_of_s3rm_fail env c _ hc hf
  constructor
  · intro hok
    simp [removeOldSaves, hab] at hok
  · simp [removeOldSaves, hab]

theorem removeOldSaves_abort_no_tombstones_witness :
    (removeOldSaves wPruneS3Fail wInst 4 wSt6).1 ≠ PruneOutcome.ok ∧
    (removeOldSaves wPruneS3Fail wInst 4 wSt6).2.saves = wSt6.saves :=
  removeOldSaves_abort_no_tombstones wPruneS3Fail wInst 4 wSt6
    (wSave 1 "f1") (by decide) rfl

/-- C6: Pruning is idempotent: right after a successful pass, a second
pass with the same retention (and no new saves in between) deletes no
further remote object and tombstones no further row, so the live-save
set after both passes equals the one after the first. -/
theorem removeOldSaves_idempotent (env1 env2 : PruneEnv) (inst : Instance)
    (reten : Nat) (st : SysState)
    (hids : (st.saves.map Save.id).Nodup)
    (hok : (removeOldSaves env1 inst reten st).1 = PruneOutcome.ok) :
    (removeOldSaves env2 inst reten
        (removeOldSaves env1 inst reten st).2).2.saves =
      (removeOldSaves env1 inst reten st).2.saves ∧
    (removeOldSaves env2 inst reten
        (removeOldSaves env1 inst reten st).2).2.remote =
      (removeOldSaves env1 inst reten st).2.remote := by
  rw [removeOldSaves_second_noop env1 env2 inst reten st hids hok]
  exact ⟨rfl, rfl⟩

theorem removeOldSaves_idempotent_witness :
    (removeOldSaves wPruneCommitFail wInst 4
        (removeOldSaves wPruneAllOk wInst 4 wSt6).2).2.saves =
      (removeOldSaves wPruneAllOk wInst 4 wSt6).2.saves ∧
    (removeOldSaves wPruneCommitFail wInst 4
        (removeOldSaves wPruneAllOk wInst 4 wSt6).2).2.remote =
      (removeOldSaves wPruneAllOk wInst 4 wSt6).2.remote :=
  removeOldSaves_idempotent wPruneAllOk wPruneCommitFail wInst 4 wSt6
    (by decide) (by decide)

/-- C7 counterexample: in a fully successful run, both quiesce commands
occur exactly once and `/save-off` comes strictly before `/save-all` —
the code disables persistence first and flushes second, not the other
way around as the claim states. -/
theorem quiesce_order_counterexample :
    ((backupInstance wEnvAllOk wInst "T" 7 7 ⟨[], []⟩).events.count
        (Event.docker "mc" "/save-off") = 1) ∧
    ((backupInstance wEnvAllOk wInst "T" 7 7 ⟨[], []⟩).events.count
        (Event.docker "mc" "/save-all") = 1) ∧
    (backupInstance wEnvAllOk wInst "T" 7 7 ⟨[], []⟩).events.indexOf
        (Event.docker "mc" "/save-off") <
      (backupInstance wEnvAllOk wInst "T" 7 7 ⟨[], []⟩).events.indexOf
        (Event.docker "mc" "/save-all") := by
  refine ⟨?_, ?_, ?_⟩ <;> decide

/-- C7 amended: every run whose quiesce commands succeed first disables
automatic persistence (`/save-off`), sleeps 5 seconds, then flushes
(`/save-all`), sleeps 10 seconds, and only then performs the first
archive attempt. -/
theorem backupInstance_quiesce_order (env : BackupEnv) (inst : Instance)
    (timeStr : String) (newId now : Nat) (st : SysState)
    (hb : env.beginOk = true) (h1 : env.chdirOk = true)
    (h2 : env.feedbackOffOk = true) (h3 : env.saveOffOk = true)
    (h4 : env.saveAllOk = true) :
    ∃ rest, (backupInstance env inst timeStr newId now st).events =
      [Event.dbBegin, Event.chdir inst.workingPath,
       Event.docker inst.containerName "/gamerule sendCommandFeedback false",
       Event.docker inst.containerName "/say Saving world...",
       Event.docker inst.containerName "/save-off",
       Event.sleepSec 5,
       Event.docker inst.containerName "/save-all",
       Event.sleepSec 10,
       Event.tarAttempt (worldTarName timeStr) inst.dirName] ++ rest := by
  obtain ⟨restB, hrestB⟩ :=
    backupBody_events_quiesce env inst timeStr newId now st h1 h2 h3 h4
  obtain ⟨tl, b, htl⟩ := tarLoop_head env.rmDuringTarOk (worldTarName timeStr)
    inst.dirName env.tarFailuresBefore
  refine ⟨tl ++ restB ++ cleanupEvents inst, ?_⟩
  rw [backupInstance_events_eq env inst timeStr newId now st hb, hrestB, htl]
  simp

theorem backupInstance_quiesce_order_witness :
    ∃ rest, (backupInstance wEnvAllOk wInst "T" 7 7 ⟨[], []⟩).events =
      [Event.dbBegin, Event.chdir "/srv",
       Event.docker "mc" "/gamerule sendCommandFeedback false",
       Event.docker "mc" "/say Saving world...",
       Event.docker "mc" "/save-off",
       Event.sleepSec 5,
       Event.docker "mc" "/save-all",
       Event.sleepSec 10,
       Event.tarAttempt (worldTarName "T") "world"] ++ rest :=
  backupInstance_quiesce_order wEnvAllOk wInst "T" 7 7 ⟨[], []⟩ rfl rfl rfl
    rfl rfl

/-- C8 counterexample: after an upload failure the run returns with the
completed local archive still on disk — the local copy is NOT deleted on
this failure path. -/
theorem local_archive_upload_failure_counterexample :
    (backupInstance wEnvUploadFail wInst "T" 7 7 ⟨[], []⟩).outcome =
        BackupOutcome.errUpload ∧
    (backupInstance wEnvUploadFail wInst "T" 7 7 ⟨[], []⟩).localTarExists =
        true :=
  ⟨rfl, rfl⟩

/-- C8 amended: the local archive is deleted before the function returns
exactly on the success path (and, within the retry loop, after each
failed tar attempt); on an upload failure the run aborts with the
completed local archive still on disk. -/
theorem backupInstance_local_archive (env : BackupEnv) (inst : Instance)
    (timeStr : String) (newId now : Nat) (st : SysState)
    (hb : env.beginOk = true) :
    ((backupInstance env inst timeStr newId now st).outcome =
        BackupOutcome.ok →
      (backupInstance env inst timeStr newId now st).localTarExists =
        false) ∧
    (env.chdirOk = true → env.feedbackOffOk = true → env.saveOffOk = true →
      env.saveAllOk = true →
      (tarLoop env.rmDuringTarOk (worldTarName timeStr) inst.dirName
        env.tarFailuresBefore).2 = true →
      env.uploadOk = false →
      (backupInstance env inst timeStr newId now st).outcome =
          BackupOutcome.errUpload ∧
        (backupInstance env inst timeStr newId now st).localTarExists =
          true) := by
  constructor
  · intro hok
    rw [backupInstance_outcome_eq env inst timeStr newId now st hb] at hok
    rw [backupInstance_tar_eq env inst timeStr newId now st hb]
    rcases backupBody_shape env inst timeStr newId now st with
      ⟨_, hno⟩ | ⟨_, hno⟩ | ⟨_, _, htar⟩
    · exact absurd hok hno
    · exact absurd hok hno
    · exact htar
  · intro h1 h2 h3 h4 htr h5
    rw [backupInstance_outcome_eq env inst timeStr newId now st hb,
      backupInstance_tar_eq env inst timeStr newId now st hb]
    constructor <;> simp [backupBody, h1, h2, h3, h4, htr, h5]

theorem backupInstance_local_archive_witness :
    (backupInstance wEnvUploadFail wInst "U" 8 8 ⟨[], []⟩).outcome =
        BackupOutcome.errUpload ∧
    (backupInstance wEnvUploadFail wInst "U" 8 8 ⟨[], []⟩).localTarExists =
        true :=
  (backupInstance_local_archive wEnvUploadFail wInst "U" 8 8 ⟨[], []⟩
    rfl).2 rfl rfl rfl rfl rfl rfl

/-- C9: the per-instance step at an instance whose `isContainerRunning`
check errors does NOT proceed to the next instance: `log.Fatalf` exits
the whole process (modelled as `fatalExit`), although the code's own log
message says "skipping" and an unreachable `continue` follows. -/
theorem processInstance_liveness_error_fatal :
    (processInstance wStepPsErr 5 wInst ⟨[], []⟩).outcome =
        StepOutcome.fatalExit ∧
    (processInstance wStepPsErr 5 wInst ⟨[], []⟩).events = [Event.ps] :=
  ⟨rfl, rfl⟩

/-- C10: When the player-count query fails, `getNumberOfPlayers` returns
-1 with an error; the step only logs it, and since -1 does not match the
zero-player test, it proceeds with the pruning pass and the full backup
anyway. -/
theorem processInstance_player_query_error_proceeds (env : StepEnv) (k : Nat)
    (inst : Instance) (st : SysState)
    (ha : inst.active = true) (hps : env.psResult = some true)
    (hq : env.listOutput = none) :
    getNumberOfPlayers env.listOutput = (-1, false) ∧
    (processInstance env k inst st).outcome = StepOutcome.continued ∧
    (processInstance env k inst st).state =
      (backupInstance env.backupEnv inst env.timeStr env.newId env.now
        (removeOldSaves env.pruneEnv inst (k - 1) st).2).state := by
  refine ⟨?_, ?_, ?_⟩
  · rw [hq]
    rfl
  · simp [processInstance, ha, hps, hq, getNumberOfPlayers]
  · simp [processInstance, ha, hps, hq, getNumberOfPlayers]


theorem processInstance_player_query_error_proceeds_witness :
    getNumberOfPlayers wStepListErr.listOutput = (-1, false) ∧
    (processInstance wStepListErr 5 wInst wSt6).outcome =
      StepOutcome.continued ∧
    (processInstance wStepListErr 5 wInst wSt6).state =
      (backupInstance wStepListErr.backupEnv wInst wStepListErr.timeStr
        wStepListErr.newId wStepListErr.now
        (removeOldSaves wStepListErr.pruneEnv wInst (5 - 1) wSt6).2).state :=
  processInstance_player_query_error_proceeds wStepListErr 5 wInst wSt6 rfl
    rfl rfl

end MCBackup
